import Mathlib

/-!
Verification of the heart-attack prediction service's core
(`app/model.py` and the statistics block of `app/main.py`).

Dataframes are embedded shallowly: a frame is an ordered association
list from column name to a typed column.  A `float64` column holds
`Option ℚ` cells (`none` models `NaN`), an integer column holds `ℤ`
cells (pandas integer columns cannot hold `NaN`), and an `object`
(textual) column holds `Option String` cells.  Python floats are
idealised as exact rationals; the only irrational operation of the
code, the square root inside the standard deviation, is modelled with
`Real.sqrt`.  Fallible pandas operations (casting a column that still
contains `NaN` to integer, building a dataframe out of columns of
unequal length) return `Except`.
-/

/-- Decidable equality for `Except`, so that concrete runs of the
embedded fallible operations can be checked by `decide`. -/
def Except.decEq {ε α : Type} [DecidableEq ε] [DecidableEq α] :
    (a b : Except ε α) → Decidable (a = b)
  | .ok a, .ok b =>
    if h : a = b then .isTrue (h ▸ rfl)
    else .isFalse (fun hh => h (Except.ok.inj hh))
  | .ok _, .error _ => .isFalse (fun hh => Except.noConfusion hh)
  | .error _, .ok _ => .isFalse (fun hh => Except.noConfusion hh)
  | .error e, .error f =>
    if h : e = f then .isTrue (h ▸ rfl)
    else .isFalse (fun hh => h (Except.error.inj hh))

instance {ε α : Type} [DecidableEq ε] [DecidableEq α] :
    DecidableEq (Except ε α) := Except.decEq

/-- Errors a pandas/numpy call of the embedded code can raise. -/
inductive PyErr
  | attributeError
  | keyError
  | indexError
  | valueError
deriving DecidableEq, Repr

/-- A typed pandas column: `float64` (`none` = `NaN`), integer, or
`object` (textual, `none` = null). -/
inductive Col
  | floatCol (vals : List (Option ℚ))
  | intCol (vals : List ℤ)
  | strCol (vals : List (Option String))
deriving DecidableEq, Repr

/-- Number of cells of a column. -/
def Col.length : Col → Nat
  | .floatCol vs => vs.length
  | .intCol vs => vs.length
  | .strCol vs => vs.length

/-- A dataframe: an ordered list of named columns. -/
structure Frame where
  cols : List (String × Col)
deriving DecidableEq, Repr

/-- Column names of a frame, in order. -/
def Frame.names (df : Frame) : List String := df.cols.map Prod.fst

/-- `len(df)`: the row count, read off the first column. -/
def Frame.nrows (df : Frame) : Nat :=
  match df.cols with
  | [] => 0
  | (_, c) :: _ => c.length

/-- A heterogeneous cell value, used for the `id` result column. -/
inductive Cell
  | intC (z : ℤ)
  | floatC (q : Option ℚ)
  | strC (s : Option String)
deriving DecidableEq, Repr

/-- The cells of a column, forgetting the dtype. -/
def Col.cells : Col → List Cell
  | .floatCol vs => vs.map .floatC
  | .intCol vs => vs.map .intC
  | .strCol vs => vs.map .strC

/-- `drop_cols = ['unnamed:_0', 'id', 'income']` (model.py line 63). -/
def dropCols : List String := ["unnamed:_0", "id", "income"]

/-- `binary_cols` (model.py lines 73-74). -/
def binaryCols : List String :=
  ["diabetes", "family_history", "smoking", "obesity",
   "alcohol_consumption", "previous_heart_problems", "medication_use"]

/-- `gender_map = {'male': 0, 'female': 1, '1.0': 0, '0.0': 1, '1': 0, '0': 1}`
(model.py line 69). -/
def genderMap (s : String) : Option ℤ :=
  if s = "male" then some 0
  else if s = "female" then some 1
  else if s = "1.0" then some 0
  else if s = "0.0" then some 1
  else if s = "1" then some 0
  else if s = "0" then some 1
  else none

/-- Lower-casing of a string, character by character (the effect of
Python's `str.lower()` / pandas `.str.lower()` on ASCII names). -/
def lowerStr (s : String) : String := ⟨s.data.map Char.toLower⟩

/-- `astype(str)` on one cell of an object column: pandas renders a
missing value as the string `"nan"`. -/
def pyStr : Option String → String
  | none => "nan"
  | some s => s

/-- One cell of `df['gender'].astype(str).str.lower().map(gender_map).fillna(0).astype(int)`
(model.py line 70). -/
def genderEncodeVal (v : Option String) : ℤ :=
  (genderMap (lowerStr (pyStr v))).getD 0

/-- The gender transformation of model.py lines 67-70: applied only when
the column's dtype is `object`; numeric gender columns pass unchanged. -/
def encodeGender : Col → Col
  | .strCol vs => .intCol (vs.map genderEncodeVal)
  | c => c

/-- The non-missing cells of a float column (what `skipna` keeps). -/
def presentVals (vs : List (Option ℚ)) : List ℚ := vs.filterMap id

/-- Insert into a sorted list of rationals. -/
def insertSorted (x : ℚ) : List ℚ → List ℚ
  | [] => [x]
  | y :: ys => if x ≤ y then x :: y :: ys else y :: insertSorted x ys

/-- Insertion sort of rationals. -/
def sortQ (xs : List ℚ) : List ℚ := xs.foldr insertSorted []

/-- `Series.median()` over the non-missing values: `none` when there is
nothing to take a median of, the middle element of the sorted values
for odd length, the mean of the two middle elements for even length. -/
def pdMedian (xs : List ℚ) : Option ℚ :=
  if (sortQ xs).length = 0 then none
  else if (sortQ xs).length % 2 = 1 then
    some ((sortQ xs).getD ((sortQ xs).length / 2) 0)
  else
    some (((sortQ xs).getD ((sortQ xs).length / 2 - 1) 0 +
      (sortQ xs).getD ((sortQ xs).length / 2) 0) / 2)

/-- numpy/pandas `round()`: round half to even (banker's rounding). -/
def roundHalfEven (q : ℚ) : ℤ :=
  let f := Rat.floor q
  let r := q - f
  if r < 1/2 then f
  else if 1/2 < r then f + 1
  else if f % 2 = 0 then f else f + 1

/-- `df[col].fillna(df[col].median()).round().astype(int)`
(model.py line 79) on the cells of a `float64` column.  When the whole
column is missing the median is `NaN`, the fill is a no-op and
`astype(int)` raises on the remaining non-finite values; an empty
column casts fine. -/
def coerceBinary (vs : List (Option ℚ)) : Except PyErr (List ℤ) :=
  match pdMedian (presentVals vs) with
  | some med => .ok (vs.map (fun v => roundHalfEven (v.getD med)))
  | none =>
    if vs.isEmpty then .ok []
    else .error .valueError

/-- `if df[col].isnull().any(): df[col] = df[col].fillna(df[col].median())`
(model.py lines 84-85) on a `float64` column.  Filling with a `NaN`
median (all cells missing) is a no-op. -/
def imputeNumeric (vs : List (Option ℚ)) : List (Option ℚ) :=
  if vs.any (fun v => v.isNone) then
    match pdMedian (presentVals vs) with
    | some med => vs.map (fun v => some (v.getD med))
    | none => vs
  else vs

/-- `df_processed.columns = df_processed.columns.str.lower()`
(model.py line 60). -/
def lowerStep (df : Frame) : Frame :=
  ⟨df.cols.map (fun p => (lowerStr p.1, p.2))⟩

/-- `df_processed.drop(columns=[col for col in drop_cols if col in columns])`
(model.py line 64): absent columns are silently skipped. -/
def dropStep (df : Frame) : Frame :=
  ⟨df.cols.filter (fun p => !(decide (p.1 ∈ dropCols)))⟩

/-- The gender block of model.py lines 67-70, columnwise: only a column
named `gender` is touched, and only when its dtype is `object`. -/
def genderStep (df : Frame) : Frame :=
  ⟨df.cols.map (fun p => if p.1 = "gender" then (p.1, encodeGender p.2) else p)⟩

/-- The per-column action of the binary loop (model.py lines 76-79):
only columns in `binary_cols` whose dtype is `float64` are coerced. -/
def binEntry (p : String × Col) : Except PyErr (String × Col) :=
  if p.1 ∈ binaryCols then
    match p.2 with
    | .floatCol vs =>
      match coerceBinary vs with
      | .error e => .error e
      | .ok zs => .ok (p.1, Col.intCol zs)
    | c => .ok (p.1, c)
  else .ok p

/-- The binary-column loop of model.py lines 76-79, column by column. -/
def binCols : List (String × Col) → Except PyErr (List (String × Col))
  | [] => .ok []
  | p :: ps =>
    match binEntry p with
    | .error e => .error e
    | .ok q =>
      match binCols ps with
      | .error e => .error e
      | .ok qs => .ok (q :: qs)

/-- The binary-column loop of model.py lines 76-79. -/
def binaryStep (df : Frame) : Except PyErr Frame :=
  match binCols df.cols with
  | .error e => .error e
  | .ok cols => .ok ⟨cols⟩

/-- The generic numeric imputation loop of model.py lines 82-85: object
columns are not numeric and integer columns never contain `NaN`, so
only `float64` columns are touched. -/
def imputeStep (df : Frame) : Frame :=
  ⟨df.cols.map (fun p =>
    match p.2 with
    | Col.floatCol vs => (p.1, Col.floatCol (imputeNumeric vs))
    | _ => p)⟩

/-- `HeartAttackModel.preprocess_data` (model.py lines 46-87), as a pure
function of the input frame (the source works on `df.copy()`). -/
def preprocessData (df : Frame) : Except PyErr Frame :=
  match binaryStep (genderStep (dropStep (lowerStep df))) with
  | .error e => .error e
  | .ok f4 => .ok (imputeStep f4)

example : preprocessData ⟨[("Gender", .strCol [some "Male", none])]⟩ =
    .ok ⟨[("gender", .intCol [0, 0])]⟩ := by with_unfolding_all decide

example : coerceBinary [some 1, none, some 0, some 1] = .ok [1, 1, 0, 1] := by
  with_unfolding_all decide

/-- The opaque classifier artifact as the prediction path sees it:
`predict` always exists, `predict_proba` is an optional capability
whose output has two columns (one probability pair per row). -/
structure PyModel where
  predict_proba : Option (Frame → List (ℚ × ℚ))
  predict : Frame → List ℚ

/-- The inference step of `predict_batch` (model.py lines 103-106):
`predict_proba(X)[:, 1]` when the capability exists, raw `predict(X)`
otherwise. -/
def modelPredictions (m : PyModel) (x : Frame) : List ℚ :=
  match m.predict_proba with
  | some f => (f x).map Prod.snd
  | none => m.predict x

/-- One row of `result_df`: an identifier and a prediction. -/
structure PredRow where
  id : Cell
  prediction : ℚ
deriving DecidableEq, Repr

/-- `df['id'].values if 'id' in df.columns else range(len(df))`
(model.py line 110), read off the original, pre-pruning frame. -/
def Frame.idCells (df : Frame) : List Cell :=
  match df.cols.lookup "id" with
  | some c => c.cells
  | none => (List.range df.nrows).map (fun i => .intC i)

/-- `HeartAttackModel.predict_batch` (model.py lines 89-114).  Building
`result_df` out of an id column and a prediction column of different
lengths raises in pandas, hence the length guard. -/
def predictBatch (m : PyModel) (df : Frame) : Except PyErr (List PredRow) :=
  match preprocessData df with
  | .error e => .error e
  | .ok dfp =>
    let preds := modelPredictions m dfp
    let ids := df.idCells
    if ids.length = preds.length then
      .ok ((ids.zip preds).map (fun p => ⟨p.1, p.2⟩))
    else .error .valueError

/-- `HeartAttackModel.predict_single` (model.py lines 116-127): run
`predict_batch` and take `result_df['prediction'].iloc[0]` (an
out-of-range `iloc` raises). -/
def predictSingle (m : PyModel) (df : Frame) : Except PyErr ℚ :=
  match predictBatch m df with
  | .error e => .error e
  | .ok rows =>
    match rows.head? with
    | some r => .ok r.prediction
    | none => .error .indexError

/-- `Series.mean()`: `NaN` (`none`) on an empty series, else the sum
divided by the length. -/
def pdMean (ps : List ℚ) : Option ℚ :=
  if ps.isEmpty then none else some (ps.sum / ps.length)

/-- `Series.min()`: `NaN` on an empty series, else the least element. -/
def pdMin (ps : List ℚ) : Option ℚ :=
  match ps with
  | [] => none
  | x :: xs => some (xs.foldl min x)

/-- `Series.max()`: `NaN` on an empty series, else the greatest element. -/
def pdMax (ps : List ℚ) : Option ℚ :=
  match ps with
  | [] => none
  | x :: xs => some (xs.foldl max x)

/-- The variance under pandas `Series.std()`: the **sample** variance
with the pandas default `ddof=1`, i.e. `Σ (x - mean)² / (n - 1)`;
`NaN` (`none`) for fewer than two values. -/
def pdVarSample (ps : List ℚ) : Option ℚ :=
  if ps.length ≤ 1 then none
  else some ((ps.map (fun x => (x - ps.sum / ps.length) ^ 2)).sum /
    ((ps.length : ℚ) - 1))

/-- `int((predictions > 0.5).sum())` (main.py line 119). -/
def riskCount (ps : List ℚ) : ℕ := ps.countP (fun p => decide (1/2 < p))

/-- `int((predictions <= 0.5).sum())` (main.py line 120). -/
def noRiskCount (ps : List ℚ) : ℕ := ps.countP (fun p => decide (p ≤ 1/2))

/-- The `statistics` record built by `predict_from_csv`
(main.py lines 114-121): exactly the six fields the endpoint returns.
`none` stands for the `NaN` a pandas reduction yields on degenerate
input. -/
structure BatchStatistics where
  mean : Option ℚ
  min : Option ℚ
  max : Option ℚ
  std : Option ℝ
  risk_count : ℕ
  no_risk_count : ℕ

/-- The statistics block of main.py lines 114-121 as a function of the
prediction vector.  The square root inside `std` is the only
non-rational operation of the code. -/
noncomputable def mkStatistics (ps : List ℚ) : BatchStatistics :=
  { mean := pdMean ps
    min := pdMin ps
    max := pdMax ps
    std := (pdVarSample ps).map (fun v => Real.sqrt (v : ℝ))
    risk_count := riskCount ps
    no_risk_count := noRiskCount ps }

/-- The arithmetic mean, in the spec's words (§4.3). -/
def specMean (ps : List ℚ) : ℚ := ps.sum / ps.length

/-- The population variance (`ddof=0`), in the spec's words (§4.3):
`Σ (x - mean)² / n`. -/
def specPopVar (ps : List ℚ) : ℚ :=
  (ps.map (fun x => (x - specMean ps) ^ 2)).sum / (ps.length : ℚ)

/-- The population standard deviation the claim asserts. -/
noncomputable def specPopStd (ps : List ℚ) : ℝ :=
  Real.sqrt ((specPopVar ps : ℚ) : ℝ)

/-- The sample variance (`ddof=1`), in the spec's words. -/
def specSampleVar (ps : List ℚ) : ℚ :=
  (ps.map (fun x => (x - specMean ps) ^ 2)).sum / ((ps.length : ℚ) - 1)

/-- The sample standard deviation (what pandas `Series.std()` computes). -/
noncomputable def specSampleStd (ps : List ℚ) : ℝ :=
  Real.sqrt ((specSampleVar ps : ℚ) : ℝ)

/-- One stage of a staged (pipeline) artifact, as `load_model` probes
it: whether `hasattr(stage, 'feature_importances_')` holds, and the
optional `get_feature_names_out` capability (calling it when absent
raises `AttributeError`). -/
structure Stage where
  has_feature_importances : Bool
  get_feature_names_out : Option (List String)
deriving DecidableEq, Repr

/-- A successfully deserialized artifact, restricted to the two
introspection capabilities `load_model` touches: an optional
`feature_names_in_` list and an optional `named_steps` mapping.
`none` models the attribute being absent, so that reading it raises
`AttributeError`. -/
structure Artifact where
  feature_names_in : Option (List String)
  named_steps : Option (List (String × Stage))
deriving DecidableEq, Repr

/-- `hasattr(self.model.named_steps.get('classifier', {}), 'feature_importances_')`
(model.py line 34), evaluated on an artifact that does expose
`named_steps`: the default `{}` of `dict.get` has no
`feature_importances_`, so a missing `classifier` stage yields
`false`. -/
def classifierHasFI (steps : List (String × Stage)) : Bool :=
  match steps.lookup "classifier" with
  | some st => st.has_feature_importances
  | none => false

/-- The feature-name extraction of `load_model` (model.py lines 32-38).
The `elif` condition dereferences `self.model.named_steps` without a
`hasattr` guard, so an artifact without `named_steps` raises
`AttributeError`; the `except` block of `load_model` logs and
re-raises, failing the load.  When the `elif` is taken,
`named_steps['preprocessor']` raises `KeyError` if that stage is
absent. -/
def extractFeatureNames (m : Artifact) : Except PyErr (List String) :=
  match m.feature_names_in with
  | some fns => .ok fns
  | none =>
    match m.named_steps with
    | none => .error .attributeError
    | some steps =>
      if classifierHasFI steps then
        match steps.lookup "preprocessor" with
        | none => .error .keyError
        | some pre =>
          match pre.get_feature_names_out with
          | none => .error .attributeError
          | some fns => .ok fns
      else .ok []

/-- A memory of dataframe objects; a Python variable holding a
dataframe is an index into it.  This models which object the in-place
column assignments of `preprocess_data` mutate. -/
structure Mem where
  frames : List Frame
deriving DecidableEq, Repr

/-- Dereference a dataframe variable. -/
def Mem.read (μ : Mem) (r : Nat) : Frame := μ.frames.getD r ⟨[]⟩

/-- Mutate the object a variable points to. -/
def Mem.write (μ : Mem) (r : Nat) (f : Frame) : Mem := ⟨μ.frames.set r f⟩

/-- `df.copy()`: allocate a fresh object with the same contents and
return its address. -/
def Mem.alloc (μ : Mem) (f : Frame) : Mem × Nat :=
  (⟨μ.frames ++ [f]⟩, μ.frames.length)

/-- `preprocess_data` with the object mutations made explicit
(model.py lines 56-87): `df_processed = df.copy()` allocates a fresh
object, and every subsequent statement of the body assigns to (or
rebinds) `df_processed` only — the caller's `df` is never written. -/
def preprocessSt (μ : Mem) (dfRef : Nat) : Except PyErr (Mem × Nat) :=
  let a := μ.alloc (μ.read dfRef)
  let μ1 := a.1
  let p := a.2
  let μ2 := μ1.write p (lowerStep (μ1.read p))
  let μ3 := μ2.write p (dropStep (μ2.read p))
  let μ4 := μ3.write p (genderStep (μ3.read p))
  match binaryStep (μ4.read p) with
  | .error e => .error e
  | .ok f4 =>
    let μ5 := μ4.write p f4
    let μ6 := μ5.write p (imputeStep (μ5.read p))
    .ok (μ6, p)

/-- `predict_batch` over the explicit memory: the id column of the
result is read from the caller's `df` (model.py line 110) after
`preprocess_data` has run. -/
def predictBatchSt (m : PyModel) (μ : Mem) (dfRef : Nat) :
    Except PyErr (Mem × List PredRow) :=
  match preprocessSt μ dfRef with
  | .error e => .error e
  | .ok s =>
    let μ1 := s.1
    let p := s.2
    let preds := modelPredictions m (μ1.read p)
    let df := μ1.read dfRef
    let ids := df.idCells
    if ids.length = preds.length then
      .ok (μ1, (ids.zip preds).map (fun q => ⟨q.1, q.2⟩))
    else .error .valueError

/-! ### Helper lemmas -/

theorem insertSorted_length (x : ℚ) (l : List ℚ) :
    (insertSorted x l).length = l.length + 1 := by
  induction l with
  | nil => rfl
  | cons y ys ih =>
    by_cases h : x ≤ y <;> simp [insertSorted, h, ih]

theorem sortQ_length (xs : List ℚ) : (sortQ xs).length = xs.length := by
  induction xs with
  | nil => rfl
  | cons x l ih => simp [sortQ, List.foldr] at ih ⊢; rw [insertSorted_length, ih]

theorem pdMedian_of_ne_nil (xs : List ℚ) (h : xs ≠ []) :
    ∃ m, pdMedian xs = some m := by
  have hlen : (sortQ xs).length ≠ 0 := by
    rw [sortQ_length]
    simpa using h
  unfold pdMedian
  rw [if_neg hlen]
  by_cases hp : (sortQ xs).length % 2 = 1
  · rw [if_pos hp]; exact ⟨_, rfl⟩
  · rw [if_neg hp]; exact ⟨_, rfl⟩

theorem rat_floor_le (q : ℚ) : (Rat.floor q : ℚ) ≤ q :=
  Rat.le_floor.mp le_rfl

theorem rat_lt_floor_add_one (q : ℚ) : q < (Rat.floor q : ℚ) + 1 := by
  by_contra h
  push_neg at h
  have h2 : ((Rat.floor q + 1 : ℤ) : ℚ) ≤ q := by push_cast; linarith
  have := Rat.le_floor.mpr h2
  omega

theorem roundHalfEven_close (q : ℚ) : |q - (roundHalfEven q : ℚ)| ≤ 1/2 := by
  have h0 := rat_floor_le q
  have h1 := rat_lt_floor_add_one q
  unfold roundHalfEven
  by_cases hlt : q - (Rat.floor q : ℚ) < 1/2
  · rw [if_pos hlt]
    rw [abs_le]
    constructor <;> linarith
  · rw [if_neg hlt]
    push_neg at hlt
    by_cases hgt : 1/2 < q - (Rat.floor q : ℚ)
    · rw [if_pos hgt]
      rw [abs_le]
      push_cast
      constructor <;> linarith
    · rw [if_neg hgt]
      push_neg at hgt
      have heq : q - (Rat.floor q : ℚ) = 1/2 := le_antisymm hgt hlt
      by_cases hev : Rat.floor q % 2 = 0
      · rw [if_pos hev, abs_le]
        constructor <;> linarith
      · rw [if_neg hev, abs_le]
        push_cast
        constructor <;> linarith

theorem foldlMin_mem (xs : List ℚ) : ∀ x : ℚ, xs.foldl min x ∈ x :: xs := by
  induction xs with
  | nil => intro x; simp
  | cons y ys ih =>
    intro x
    simp only [List.foldl_cons]
    rcases List.mem_cons.mp (ih (min x y)) with h1 | h1
    · rcases min_choice x y with h2 | h2
      · rw [h1, h2]; exact List.mem_cons_self _ _
      · rw [h1, h2]; exact List.mem_cons_of_mem _ (List.mem_cons_self _ _)
    · exact List.mem_cons_of_mem _ (List.mem_cons_of_mem _ h1)

theorem foldlMin_le (xs : List ℚ) : ∀ x : ℚ, ∀ y ∈ x :: xs, xs.foldl min x ≤ y := by
  induction xs with
  | nil =>
    intro x y hy
    simp at hy
    simp [hy]
  | cons z zs ih =>
    intro x y hy
    simp only [List.foldl_cons]
    rcases List.mem_cons.mp hy with h1 | h1
    · have := ih (min x z) (min x z) (List.mem_cons_self _ _)
      calc zs.foldl min (min x z) ≤ min x z := this
        _ ≤ x := min_le_left _ _
        _ = y := h1.symm
    · rcases List.mem_cons.mp h1 with h2 | h2
      · have := ih (min x z) (min x z) (List.mem_cons_self _ _)
        calc zs.foldl min (min x z) ≤ min x z := this
          _ ≤ z := min_le_right _ _
          _ = y := h2.symm
      · exact ih (min x z) y (List.mem_cons_of_mem _ h2)

theorem foldlMax_mem (xs : List ℚ) : ∀ x : ℚ, xs.foldl max x ∈ x :: xs := by
  induction xs with
  | nil => intro x; simp
  | cons y ys ih =>
    intro x
    simp only [List.foldl_cons]
    rcases List.mem_cons.mp (ih (max x y)) with h1 | h1
    · rcases max_choice x y with h2 | h2
      · rw [h1, h2]; exact List.mem_cons_self _ _
      · rw [h1, h2]; exact List.mem_cons_of_mem _ (List.mem_cons_self _ _)
    · exact List.mem_cons_of_mem _ (List.mem_cons_of_mem _ h1)

theorem foldlMax_ge (xs : List ℚ) : ∀ x : ℚ, ∀ y ∈ x :: xs, y ≤ xs.foldl max x := by
  induction xs with
  | nil =>
    intro x y hy
    simp at hy
    simp [hy]
  | cons z zs ih =>
    intro x y hy
    simp only [List.foldl_cons]
    rcases List.mem_cons.mp hy with h1 | h1
    · have := ih (max x z) (max x z) (List.mem_cons_self _ _)
      calc y = x := h1
        _ ≤ max x z := le_max_left _ _
        _ ≤ zs.foldl max (max x z) := this
    · rcases List.mem_cons.mp h1 with h2 | h2
      · have := ih (max x z) (max x z) (List.mem_cons_self _ _)
        calc y = z := h2
          _ ≤ max x z := le_max_right _ _
          _ ≤ zs.foldl max (max x z) := this
      · exact ih (max x z) y (List.mem_cons_of_mem _ h2)

theorem lookup_none_of_not_mem {β : Type} (k : String) (l : List (String × β))
    (h : k ∉ l.map Prod.fst) : l.lookup k = none := by
  induction l with
  | nil => rfl
  | cons p ps ih =>
    simp only [List.map_cons, List.mem_cons, not_or] at h
    have hne : (k == p.1) = false := beq_eq_false_iff_ne.mpr h.1
    obtain ⟨a, b⟩ := p
    simp only [List.lookup] at *
    rw [hne]
    exact ih h.2

theorem names_lowerStep (df : Frame) :
    (lowerStep df).names = df.names.map lowerStr := by
  simp [lowerStep, Frame.names, List.map_map, Function.comp]

theorem names_dropStep (df : Frame) :
    (dropStep df).names = df.names.filter (fun n => !(decide (n ∈ dropCols))) := by
  simp only [dropStep, Frame.names]
  rw [List.filter_map]
  rfl

theorem names_genderStep (df : Frame) : (genderStep df).names = df.names := by
  simp only [genderStep, Frame.names, List.map_map]
  apply List.map_congr_left
  intro p _
  by_cases h : p.1 = "gender" <;> simp [h]

theorem names_imputeStep (df : Frame) : (imputeStep df).names = df.names := by
  simp only [imputeStep, Frame.names, List.map_map]
  apply List.map_congr_left
  intro p _
  cases hp : p.2 <;> simp [hp]

theorem binEntry_fst (p q : String × Col) (h : binEntry p = .ok q) : q.1 = p.1 := by
  unfold binEntry at h
  split at h
  · split at h
    · split at h
      · exact absurd h (by simp)
      · rw [← Except.ok.inj h]
    · rw [← Except.ok.inj h]
  · rw [← Except.ok.inj h]

theorem binCols_fst (l l' : List (String × Col)) (h : binCols l = .ok l') :
    l'.map Prod.fst = l.map Prod.fst := by
  induction l generalizing l' with
  | nil =>
    simp only [binCols, Except.ok.injEq] at h
    rw [← h]
  | cons p ps ih =>
    simp only [binCols] at h
    split at h
    · exact absurd h (by simp)
    · rename_i q he
      split at h
      · exact absurd h (by simp)
      · rename_i qs hr
        rw [← Except.ok.inj h]
        simp only [List.map_cons]
        rw [binEntry_fst p q he, ih qs hr]

theorem names_binaryStep (df g : Frame) (h : binaryStep df = .ok g) :
    g.names = df.names := by
  unfold binaryStep at h
  cases hc : binCols df.cols with
  | error e => rw [hc] at h; exact absurd h (by simp)
  | ok l' =>
    rw [hc] at h
    rw [← Except.ok.inj h]
    exact binCols_fst _ _ hc

/-- The column names of a successfully normalized frame: the
lower-cased input names with the drop set removed. -/
theorem preprocess_names (df out : Frame) (h : preprocessData df = .ok out) :
    out.names = (df.names.map lowerStr).filter
      (fun n => !(decide (n ∈ dropCols))) := by
  unfold preprocessData at h
  cases hb : binaryStep (genderStep (dropStep (lowerStep df))) with
  | error e => rw [hb] at h; exact absurd h (by simp)
  | ok f4 =>
    rw [hb] at h
    rw [← Except.ok.inj h, names_imputeStep, names_binaryStep _ _ hb,
      names_genderStep, names_dropStep, names_lowerStep]

theorem Mem.read_write_ne (μ : Mem) {r p : Nat} (h : p ≠ r) (f : Frame) :
    (μ.write p f).read r = μ.read r := by
  simp only [Mem.read, Mem.write, List.getD, List.get?_eq_getElem?]
  rw [List.getElem?_set_ne h]

theorem Mem.read_alloc_lt (μ : Mem) (f : Frame) {r : Nat}
    (h : r < μ.frames.length) :
    (μ.alloc f).1.read r = μ.read r := by
  simp only [Mem.read, Mem.alloc, List.getD, List.get?_eq_getElem?]
  rw [List.getElem?_append_left h]

/-- `preprocess_data` leaves the caller's frame untouched: the copy is
allocated at a fresh address and every mutation targets the copy. -/
theorem preprocessSt_reads (μ : Mem) (dfRef : Nat) (μ1 : Mem) (p : Nat)
    (hr : dfRef < μ.frames.length)
    (h : preprocessSt μ dfRef = .ok (μ1, p)) :
    μ1.read dfRef = μ.read dfRef := by
  simp only [preprocessSt] at h
  split at h
  · exact absurd h (by simp)
  · have hp : μ.frames.length ≠ dfRef := Nat.ne_of_gt hr
    have he := Except.ok.inj h
    have hμ : μ1 = (((((μ.alloc (μ.read dfRef)).1.write μ.frames.length
        (lowerStep ((μ.alloc (μ.read dfRef)).1.read μ.frames.length))).write
          μ.frames.length _).write μ.frames.length _).write μ.frames.length _).write
            μ.frames.length _ := congrArg Prod.fst he.symm
    rw [hμ]
    rw [Mem.read_write_ne _ hp, Mem.read_write_ne _ hp, Mem.read_write_ne _ hp,
      Mem.read_write_ne _ hp, Mem.read_write_ne _ hp, Mem.read_alloc_lt _ _ hr]


/-! ### Claim theorems -/

/-- The gender resolution exactly as the claim words it: lower-case and
map via the table, every unmapped value including null resolving to 0. -/
def claimGender (v : Option String) : ℤ :=
  match v with
  | none => 0
  | some s => (genderMap (lowerStr s)).getD 0

/-- Claim C3: during normalization, a textual gender column is
lower-cased and mapped through the table
`{male→0, female→1, "1.0"→0, "0.0"→1, "1"→0, "0"→1}`, every unmapped
value (including null) resolving to 0; in particular `"male"`
normalizes to 0. -/
theorem C3_gender_encoding :
    (∀ v : Option String, genderEncodeVal v = claimGender v) ∧
    (∀ vs : List (Option String),
      encodeGender (Col.strCol vs) = Col.intCol (vs.map genderEncodeVal)) ∧
    genderEncodeVal (some "male") = 0 ∧
    genderEncodeVal none = 0 ∧
    genderEncodeVal (some "FEMALE") = 1 ∧
    genderEncodeVal (some "other") = 0 := by
  refine ⟨?_, fun vs => rfl, by decide, by decide, by decide, by decide⟩
  intro v
  cases v with
  | none => decide
  | some s => rfl

/-- Claim C5 counterexample: summarizing an empty probability sequence
does NOT raise — the statistics block of main.py lines 114-121 yields a
silent record whose counts are zero and whose pandas reductions are
`NaN` placeholders, refuting the claimed explicit failure. -/
theorem C5_counterexample :
    (mkStatistics []).risk_count = 0 ∧
    (mkStatistics []).no_risk_count = 0 ∧
    (mkStatistics []).mean = none ∧
    (mkStatistics []).std = none :=
  ⟨rfl, rfl, rfl, rfl⟩

/-- Claim C5 amended: on an empty probability sequence the statistics
record is produced silently, with `NaN` (here `none`) mean, min, max
and std, and zero risk counts; no error is raised. -/
theorem C5_amended :
    mkStatistics [] =
      { mean := none, min := none, max := none, std := none,
        risk_count := 0, no_risk_count := 0 } :=
  rfl

/-- Claim C2 (code-bug evidence): `load_model`'s capability fallback.
An artifact with `feature_names_in_` loads its names; a staged artifact
without a relevant classifier stage degrades to the empty list; but an
artifact exposing NEITHER `feature_names_in_` NOR `named_steps`
raises `AttributeError` in the `elif` condition (model.py line 34) and
the `except` block re-raises, failing the load — contradicting the
claim that the load never fails for any deserialized artifact. -/
theorem C2_failing_eval :
    extractFeatureNames ⟨none, none⟩ = .error .attributeError ∧
    extractFeatureNames ⟨some ["age", "gender"], none⟩ = .ok ["age", "gender"] ∧
    extractFeatureNames ⟨none, some [("scaler", ⟨false, none⟩)]⟩ = .ok [] ∧
    extractFeatureNames ⟨none, some [("classifier", ⟨true, none⟩)]⟩ =
      .error .keyError :=
  ⟨rfl, rfl, by decide, by decide⟩

/-- Claim C7: each row's prediction is the second column of
`predict_proba` when that capability exists, and the raw `predict`
output (no rescaling) otherwise; `predict_batch`'s prediction column is
exactly this vector computed on the preprocessed frame. -/
theorem C7_prediction_source :
    (∀ (m : PyModel) (df : Frame) (rows : List PredRow),
      predictBatch m df = .ok rows →
      ∃ dfp, preprocessData df = .ok dfp ∧
        rows.map PredRow.prediction = modelPredictions m dfp) ∧
    (∀ (m : PyModel) (x : Frame) (f : Frame → List (ℚ × ℚ)),
      m.predict_proba = some f →
      modelPredictions m x = (f x).map Prod.snd) ∧
    (∀ (m : PyModel) (x : Frame),
      m.predict_proba = none → modelPredictions m x = m.predict x) := by
  refine ⟨?_, ?_, ?_⟩
  · intro m df rows h
    unfold predictBatch at h
    split at h
    · exact absurd h (by simp)
    · rename_i dfp hdfp
      refine ⟨dfp, hdfp, ?_⟩
      simp only [] at h
      split at h
      · rename_i hlen
        rw [← Except.ok.inj h]
        rw [List.map_map]
        have : (PredRow.prediction ∘ fun p : Cell × ℚ => PredRow.mk p.1 p.2) =
            Prod.snd := rfl
        rw [this]
        exact List.map_snd_zip _ _ (le_of_eq hlen.symm)
      · exact absurd h (by simp)
  · intro m x f h
    unfold modelPredictions
    rw [h]
  · intro m x h
    unfold modelPredictions
    rw [h]

/-- A two-column probability output: `1/4` for the negative class and
`3/4` for the positive class on every row. -/
def probaFn : Frame → List (ℚ × ℚ) :=
  fun x => (List.range x.nrows).map (fun _ => (1/4, 3/4))

/-- A model exposing `predict_proba`. -/
def mWithProba : PyModel := ⟨some probaFn, fun _ => []⟩

/-- A model exposing only `predict`, returning a raw class label `2`
outside `[0,1]`. -/
def mNoProba : PyModel :=
  ⟨none, fun x => (List.range x.nrows).map (fun _ => 2)⟩

/-- A two-row frame used by the C7 witness. -/
def dfC7 : Frame := ⟨[("age", .floatCol [some 55, some 61])]⟩

theorem C7_witness :
    mWithProba.predict_proba = some probaFn ∧
    modelPredictions mWithProba dfC7 = (probaFn dfC7).map Prod.snd ∧
    mNoProba.predict_proba = none ∧
    modelPredictions mNoProba dfC7 = mNoProba.predict dfC7 :=
  ⟨rfl, C7_prediction_source.2.1 mWithProba dfC7 probaFn rfl, rfl,
    C7_prediction_source.2.2 mNoProba dfC7 rfl⟩

theorem risk_noRisk_sum (ps : List ℚ) : riskCount ps + noRiskCount ps = ps.length := by
  induction ps with
  | nil => rfl
  | cons x xs ih =>
    simp only [riskCount, noRiskCount] at ih ⊢
    by_cases hx : (1/2 : ℚ) < x
    · have h1 : (decide ((1:ℚ)/2 < x)) = true := decide_eq_true hx
      have h2 : (decide (x ≤ (1:ℚ)/2)) = false := decide_eq_false (not_le.mpr hx)
      rw [List.countP_cons, List.countP_cons, h1, h2, if_pos rfl,
        if_neg Bool.false_ne_true]
      simp only [List.length_cons]
      omega
    · have h1 : (decide ((1:ℚ)/2 < x)) = false := decide_eq_false hx
      have h2 : (decide (x ≤ (1:ℚ)/2)) = true := decide_eq_true (not_lt.mp hx)
      rw [List.countP_cons, List.countP_cons, h1, h2, if_pos rfl,
        if_neg Bool.false_ne_true]
      simp only [List.length_cons]
      omega

/-- Claim C1 counterexample: on the probabilities
`[0.2, 0.6, 0.9, 0.4]` the `std` field of the statistics record is NOT
the population standard deviation (`ddof=0`) the claim asserts —
pandas `Series.std()` divides the squared deviations by `n - 1`, not
`n`. -/
theorem C1_counterexample :
    (mkStatistics [1/5, 3/5, 9/10, 2/5]).std ≠
      some (specPopStd [1/5, 3/5, 9/10, 2/5]) := by
  have h1 : pdVarSample [1/5, 3/5, 9/10, 2/5] = some (107/1200) := by
    norm_num [pdVarSample]
  have h2 : specPopVar [1/5, 3/5, 9/10, 2/5] = 107/1600 := by
    norm_num [specPopVar, specMean]
  intro h
  have hstd : (mkStatistics [1/5, 3/5, 9/10, 2/5]).std =
      (pdVarSample [1/5, 3/5, 9/10, 2/5]).map (fun v => Real.sqrt (v : ℝ)) := rfl
  rw [hstd, h1] at h
  unfold specPopStd at h
  rw [h2] at h
  have h3 : Real.sqrt ((107/1200 : ℚ) : ℝ) = Real.sqrt ((107/1600 : ℚ) : ℝ) :=
    Option.some.inj h
  rw [Real.sqrt_inj (by push_cast; norm_num) (by push_cast; norm_num)] at h3
  have h4 : ((107/1200 : ℚ) : ℝ) ≠ ((107/1600 : ℚ) : ℝ) := by
    push_cast
    norm_num
  exact h4 h3

/-- Claim C1 amended: for every non-empty probability sequence the
statistics record of main.py lines 114-121 has exactly the fields
mean, min, max, std, risk_count and no_risk_count, where mean is the
arithmetic mean, min/max are an attained lower/upper bound of the
sequence, risk_count counts values strictly above 0.5, no_risk_count
counts values at most 0.5, the two counts sum to the length — and std
is the SAMPLE standard deviation (pandas default `ddof=1`), which is
moreover undefined (`NaN`) for a single-element sequence. -/
theorem C1_statistics_fields (ps : List ℚ) (h : ps ≠ []) :
    (mkStatistics ps).mean = some (specMean ps) ∧
    (∃ m, (mkStatistics ps).min = some m ∧ m ∈ ps ∧ ∀ x ∈ ps, m ≤ x) ∧
    (∃ M, (mkStatistics ps).max = some M ∧ M ∈ ps ∧ ∀ x ∈ ps, x ≤ M) ∧
    (mkStatistics ps).risk_count =
      (ps.filter (fun p => decide (1/2 < p))).length ∧
    (mkStatistics ps).no_risk_count =
      (ps.filter (fun p => decide (p ≤ 1/2))).length ∧
    (mkStatistics ps).risk_count + (mkStatistics ps).no_risk_count = ps.length ∧
    (2 ≤ ps.length → (mkStatistics ps).std = some (specSampleStd ps)) ∧
    (ps.length = 1 → (mkStatistics ps).std = none) := by
  obtain ⟨x, xs, rfl⟩ := List.exists_cons_of_ne_nil h
  refine ⟨?_, ?_, ?_, ?_, ?_, ?_, ?_, ?_⟩
  · show pdMean (x :: xs) = some (specMean (x :: xs))
    rw [pdMean, if_neg (by simp)]
    rfl
  · exact ⟨xs.foldl min x, rfl, foldlMin_mem xs x, foldlMin_le xs x⟩
  · exact ⟨xs.foldl max x, rfl, foldlMax_mem xs x, foldlMax_ge xs x⟩
  · show riskCount (x :: xs) =
      (List.filter (fun p => decide (1/2 < p)) (x :: xs)).length
    unfold riskCount
    exact List.countP_eq_length_filter _ _
  · show noRiskCount (x :: xs) =
      (List.filter (fun p => decide (p ≤ 1/2)) (x :: xs)).length
    unfold noRiskCount
    exact List.countP_eq_length_filter _ _
  · exact risk_noRisk_sum (x :: xs)
  · intro hlen
    have hgt : ¬((x :: xs).length ≤ 1) := by omega
    show (pdVarSample (x :: xs)).map (fun v => Real.sqrt (v : ℝ)) =
      some (specSampleStd (x :: xs))
    rw [pdVarSample, if_neg hgt]
    rfl
  · intro hlen
    have hle : (x :: xs).length ≤ 1 := le_of_eq hlen
    show (pdVarSample (x :: xs)).map (fun v => Real.sqrt (v : ℝ)) = none
    rw [pdVarSample, if_pos hle]
    rfl

theorem C1_witness :
    ([1/5, 3/5, 9/10, 2/5] : List ℚ) ≠ [] ∧
    (mkStatistics [1/5, 3/5, 9/10, 2/5]).mean =
      some (specMean [1/5, 3/5, 9/10, 2/5]) ∧
    specMean [1/5, 3/5, 9/10, 2/5] = 21/40 ∧
    (mkStatistics [1/5, 3/5, 9/10, 2/5]).min = some (1/5) ∧
    (mkStatistics [1/5, 3/5, 9/10, 2/5]).max = some (9/10) ∧
    (mkStatistics [1/5, 3/5, 9/10, 2/5]).risk_count = 2 ∧
    (mkStatistics [1/5, 3/5, 9/10, 2/5]).no_risk_count = 2 := by
  refine ⟨by decide, (C1_statistics_fields _ (by decide)).1, ?_, ?_, ?_, ?_, ?_⟩
  · with_unfolding_all decide
  · show pdMin [1/5, 3/5, 9/10, 2/5] = some (1/5)
    with_unfolding_all decide
  · show pdMax [1/5, 3/5, 9/10, 2/5] = some (9/10)
    with_unfolding_all decide
  · show riskCount [1/5, 3/5, 9/10, 2/5] = 2
    with_unfolding_all decide
  · show noRiskCount [1/5, 3/5, 9/10, 2/5] = 2
    with_unfolding_all decide

/-- Claim C4: a binary column present as `float64` has its missing
values replaced by the batch median of the present values, every value
rounded to a nearest integer (`|q - round q| <= 1/2`), and is cast to
integer; an integer-typed binary column passes through untouched; the
concrete batch `[1.0, NaN, 0.0, 1.0]` has median 1 and coerces to
`[1, 1, 0, 1]`. -/
theorem C4_binary_coercion :
    (∀ vs : List (Option ℚ), presentVals vs ≠ [] →
      ∃ med, pdMedian (presentVals vs) = some med ∧
        coerceBinary vs = .ok (vs.map (fun v => roundHalfEven (v.getD med)))) ∧
    (∀ q : ℚ, |q - (roundHalfEven q : ℚ)| ≤ 1/2) ∧
    (∀ (n : String) (zs : List ℤ),
      binEntry (n, Col.intCol zs) = .ok (n, Col.intCol zs)) ∧
    pdMedian (presentVals [some 1, none, some 0, some 1]) = some 1 ∧
    coerceBinary [some 1, none, some 0, some 1] = .ok [1, 1, 0, 1] := by
  refine ⟨?_, roundHalfEven_close, ?_, ?_, ?_⟩
  · intro vs hne
    obtain ⟨med, hmed⟩ := pdMedian_of_ne_nil _ hne
    refine ⟨med, hmed, ?_⟩
    unfold coerceBinary
    rw [hmed]
  · intro n zs
    unfold binEntry
    by_cases hb : n ∈ binaryCols
    · rw [if_pos hb]
    · rw [if_neg hb]
  · with_unfolding_all decide
  · with_unfolding_all decide

theorem C4_witness :
    presentVals [some 1, none, some 0, some 1] ≠ [] ∧
    pdMedian (presentVals [some 1, none, some 0, some 1]) = some 1 ∧
    coerceBinary [some 1, none, some 0, some 1] =
      .ok ([(some 1 : Option ℚ), none, some 0, some 1].map
        (fun v => roundHalfEven (v.getD 1))) := by
  have hne : presentVals [(some 1 : Option ℚ), none, some 0, some 1] ≠ [] := by
    with_unfolding_all decide
  obtain ⟨med, hmed, hco⟩ := C4_binary_coercion.1 _ hne
  have hm1 : pdMedian (presentVals [(some 1 : Option ℚ), none, some 0, some 1]) =
      some 1 := by
    with_unfolding_all decide
  have hmv : med = 1 := Option.some.inj (hmed.symm.trans hm1)
  rw [hmv] at hco
  exact ⟨hne, hm1, hco⟩

/-- Claim C6: the single-row path is the batch path: whenever
`predict_batch` succeeds, `predict_single` returns exactly the first
row's prediction of the batch result (it is literally defined as the
batch call followed by `iloc[0]`, so both call shapes share the same
normalization and inference logic). -/
theorem C6_single_is_batch (m : PyModel) (df : Frame) (rows : List PredRow)
    (r : PredRow) (h1 : predictBatch m df = .ok rows)
    (h2 : rows.head? = some r) :
    predictSingle m df = .ok r.prediction := by
  simp [predictSingle, h1, h2]

/-- A one-row frame with an `id` column, used by the C6 witness. -/
def dfC6 : Frame := ⟨[("id", .intCol [7]), ("age", .floatCol [some 55])]⟩

theorem C6_witness :
    predictBatch mWithProba dfC6 = .ok [⟨Cell.intC 7, 3/4⟩] ∧
    ([(⟨Cell.intC 7, 3/4⟩ : PredRow)]).head? = some ⟨Cell.intC 7, 3/4⟩ ∧
    predictSingle mWithProba dfC6 = .ok ((3 : ℚ)/4) :=
  ⟨by with_unfolding_all decide, rfl,
    C6_single_is_batch mWithProba dfC6 [⟨Cell.intC 7, 3/4⟩] ⟨Cell.intC 7, 3/4⟩
      (by with_unfolding_all decide) rfl⟩

/-- Claim C8: after case folding, normalization's output names are the
lower-cased input names with `unnamed:_0`, `id` and `income` removed —
a column whose lower-cased name is in the drop set is absent from the
output whatever its original casing, and absent drop columns are
silently ignored (the filter is total). -/
theorem C8_column_pruning :
    (∀ (df out : Frame), preprocessData df = .ok out →
      out.names = (df.names.map lowerStr).filter
        (fun n => !(decide (n ∈ dropCols)))) ∧
    (∀ (df out : Frame), preprocessData df = .ok out →
      ∀ c ∈ dropCols, c ∉ out.names) := by
  refine ⟨preprocess_names, ?_⟩
  intro df out h c hc hcout
  rw [preprocess_names df out h] at hcout
  have hpred := List.of_mem_filter hcout
  simp only [Bool.not_eq_true', decide_eq_false_iff_not] at hpred
  exact hpred hc

/-- An input with mixed-case droppable columns, for the C8 witness. -/
def dfC8 : Frame :=
  ⟨[("Unnamed:_0", .intCol [1]), ("ID", .intCol [5]),
    ("Age", .floatCol [some 40])]⟩

/-- What C8's input normalizes to. -/
def outC8 : Frame := ⟨[("age", .floatCol [some 40])]⟩

theorem C8_witness :
    preprocessData dfC8 = .ok outC8 ∧
    outC8.names = (dfC8.names.map lowerStr).filter
      (fun n => !(decide (n ∈ dropCols))) ∧
    "id" ∉ outC8.names ∧ "unnamed:_0" ∉ outC8.names ∧
    "ID" ∉ outC8.names ∧ "Unnamed:_0" ∉ outC8.names := by
  have h : preprocessData dfC8 = .ok outC8 := by with_unfolding_all decide
  exact ⟨h, C8_column_pruning.1 dfC8 outC8 h, by decide, by decide,
    by decide, by decide⟩

/-- Claim C9: `predict_batch` never mutates the caller's dataframe —
`preprocess_data` works on `df.copy()` and every in-place assignment
targets the copy — and the result's id column is read from the
caller's original, pre-pruning frame after normalization has run. -/
theorem C9_no_mutation (m : PyModel) (μ : Mem) (dfRef : Nat) (μ2 : Mem)
    (rows : List PredRow) (hr : dfRef < μ.frames.length)
    (h : predictBatchSt m μ dfRef = .ok (μ2, rows)) :
    μ2.read dfRef = μ.read dfRef ∧
    rows.map PredRow.id = (μ.read dfRef).idCells := by
  unfold predictBatchSt at h
  cases hs : preprocessSt μ dfRef with
  | error e => rw [hs] at h; exact absurd h (by simp)
  | ok s =>
    rw [hs] at h
    obtain ⟨μ1, p⟩ := s
    have hread := preprocessSt_reads μ dfRef μ1 p hr hs
    simp only [] at h
    split at h
    · rename_i hlen
      have he := Except.ok.inj h
      injection he with hμ hrows
      constructor
      · rw [← hμ]; exact hread
      · rw [← hrows, List.map_map]
        have hc : (PredRow.id ∘ fun q : Cell × ℚ => PredRow.mk q.1 q.2) =
            Prod.fst := rfl
        rw [hc, List.map_fst_zip _ _ (le_of_eq hlen), hread]
    · exact absurd h (by simp)

/-- The one-frame memory of the C9 witness. -/
def memC9 : Mem := ⟨[⟨[("id", Col.intCol [3]), ("age", Col.floatCol [some 50])]⟩]⟩

/-- The memory after the C9 witness run: the original frame unchanged
at address 0, the processed copy at address 1. -/
def memC9out : Mem :=
  ⟨[⟨[("id", Col.intCol [3]), ("age", Col.floatCol [some 50])]⟩,
    ⟨[("age", Col.floatCol [some 50])]⟩]⟩

theorem C9_witness :
    0 < memC9.frames.length ∧
    predictBatchSt mWithProba memC9 0 = .ok (memC9out, [⟨Cell.intC 3, 3/4⟩]) ∧
    memC9out.read 0 = memC9.read 0 ∧
    ([(⟨Cell.intC 3, 3/4⟩ : PredRow)]).map PredRow.id = (memC9.read 0).idCells := by
  have hp : predictBatchSt mWithProba memC9 0 =
      .ok (memC9out, [⟨Cell.intC 3, 3/4⟩]) := by
    with_unfolding_all decide
  refine ⟨by decide, hp, ?_, ?_⟩
  · exact (C9_no_mutation mWithProba memC9 0 memC9out _ (by decide) hp).1
  · exact (C9_no_mutation mWithProba memC9 0 memC9out _ (by decide) hp).2

/-- Claim C10: the id lookup of `predict_batch` is case-sensitive on
the ORIGINAL column names: when no column is named exactly `id`, the
result identifiers fall back to the row indices `0..n-1`, and any
casing variant of `id` is nevertheless pruned from the normalized
feature matrix (its lower-cased name sits in the drop set). -/
theorem C10_id_lookup (m : PyModel) (df : Frame) (rows : List PredRow)
    (hid : "id" ∉ df.names)
    (h : predictBatch m df = .ok rows) :
    rows.map PredRow.id = (List.range df.nrows).map Cell.intC ∧
    (∀ out, preprocessData df = .ok out → "id" ∉ out.names) := by
  constructor
  · unfold predictBatch at h
    split at h
    · exact absurd h (by simp)
    · rename_i dfp hdfp
      simp only [] at h
      split at h
      · rename_i hlen
        have he := Except.ok.inj h
        rw [← he, List.map_map]
        have hc : (PredRow.id ∘ fun q : Cell × ℚ => PredRow.mk q.1 q.2) =
            Prod.fst := rfl
        rw [hc, List.map_fst_zip _ _ (le_of_eq hlen)]
        unfold Frame.idCells
        rw [lookup_none_of_not_mem "id" df.cols hid]
      · exact absurd h (by simp)
  · intro out hout hmem
    rw [preprocess_names df out hout] at hmem
    have hpred := List.of_mem_filter hmem
    simp only [Bool.not_eq_true', decide_eq_false_iff_not] at hpred
    exact hpred (by decide)

/-- An input whose identifier column is upper-cased, for C10. -/
def dfC10 : Frame := ⟨[("ID", .intCol [9]), ("age", .floatCol [some 33])]⟩

/-- What C10's input normalizes to: the `ID` column is pruned. -/
def outC10 : Frame := ⟨[("age", .floatCol [some 33])]⟩

theorem C10_witness :
    "id" ∉ dfC10.names ∧
    predictBatch mWithProba dfC10 = .ok [⟨Cell.intC 0, 3/4⟩] ∧
    ([(⟨Cell.intC 0, 3/4⟩ : PredRow)]).map PredRow.id =
      (List.range dfC10.nrows).map Cell.intC ∧
    preprocessData dfC10 = .ok outC10 ∧
    "id" ∉ outC10.names ∧ "ID" ∉ outC10.names := by
  have hb : predictBatch mWithProba dfC10 = .ok [⟨Cell.intC 0, 3/4⟩] := by
    with_unfolding_all decide
  have ho : preprocessData dfC10 = .ok outC10 := by with_unfolding_all decide
  refine ⟨by decide, hb,
    (C10_id_lookup mWithProba dfC10 _ (by decide) hb).1, ho,
    (C10_id_lookup mWithProba dfC10 _ (by decide) hb).2 outC10 ho, by decide⟩
